import Mathlib

/-!
Verification development for the viewport-driven fire-detection
synchronization layer of the WildGuard dashboard.

The definitions below are a shallow embedding of the JavaScript source:
* `src/frontend/src/components/WildfireDetection.js` — normalizer
  (`processedFires` inside `fetchFireData`), `isInNorthAmerica`,
  `getFireIcon`'s color expression, `updateFireMarkers`, `updateHeatMap`,
  the fetch-response handling, and the 500 ms debounce effect;
* `src/frontend/src/utils/geoutils.js` — `getFireColor`.

JavaScript field values are modeled as `Option JSNum`: `none` is a missing
key (`undefined`), and `JSNum` is an IEEE-style number — `nan`, the two
infinities, or a rational.  String-valued fields do not occur in the
backend's `fire_detections` payload and are not modeled.
Leaflet's layer registry keys layers by a unique stamp id, so the map's
attached layers are modeled as `Finset ℕ` with a monotone id allocator.
-/

/-- A JavaScript number: `NaN`, `±Infinity`, or a finite value (modeled
as a rational). -/
inductive JSNum where
  | nan : JSNum
  | inf : JSNum
  | negInf : JSNum
  | num : ℚ → JSNum
deriving DecidableEq

/-- JavaScript truthiness of a number: `NaN` and `0` are falsy, every
other number (including the infinities) is truthy. -/
def JSNum.truthy : JSNum → Bool
  | .nan => false
  | .num q => decide (q ≠ 0)
  | _ => true

/-- JavaScript `a || b` where `a` is a possibly-missing number and `b` is
a number: yields `a` when it is present and truthy, otherwise `b`. -/
def jsOr (a : Option JSNum) (b : JSNum) : JSNum :=
  match a with
  | some v => if v.truthy then v else b
  | none => b

/-- JavaScript `a || b` where both operands are possibly missing: yields
`a` when present and truthy, otherwise `b` (which may be `undefined`). -/
def jsOrOpt (a : Option JSNum) (b : Option JSNum) : Option JSNum :=
  match a with
  | some v => if v.truthy then some v else b
  | none => b

/-- JavaScript `a <= b` on numbers: false whenever either side is `NaN`. -/
def JSNum.jsLe : JSNum → JSNum → Bool
  | .nan, _ => false
  | _, .nan => false
  | .negInf, _ => true
  | _, .negInf => false
  | _, .inf => true
  | .inf, _ => false
  | .num a, .num b => decide (a ≤ b)

/-- JavaScript `a < b` on numbers: false whenever either side is `NaN`. -/
def JSNum.jsLt : JSNum → JSNum → Bool
  | .nan, _ => false
  | _, .nan => false
  | .inf, _ => false
  | _, .inf => true
  | _, .negInf => false
  | .negInf, _ => true
  | .num a, .num b => decide (a < b)

/-- JavaScript `Math.max` on two numbers (`NaN` propagates). -/
def jsMax : JSNum → JSNum → JSNum
  | .nan, _ => .nan
  | _, .nan => .nan
  | .inf, _ => .inf
  | _, .inf => .inf
  | .negInf, b => b
  | a, .negInf => a
  | .num a, .num b => .num (max a b)

/-- JavaScript `Math.min` on two numbers (`NaN` propagates). -/
def jsMin : JSNum → JSNum → JSNum
  | .nan, _ => .nan
  | _, .nan => .nan
  | .negInf, _ => .negInf
  | _, .negInf => .negInf
  | .inf, b => b
  | a, .inf => a
  | .num a, .num b => .num (min a b)

/-- `WildfireDetection.js:10` — `NORTH_AMERICA_BOUNDS`
`[minLat, minLng, maxLat, maxLng] = [5.499550, -167.276413, 83.162102,
-52.233040]`, written with `mkRat` so the values compute by kernel
reduction; `northAmericaBounds_eq` below proves they are the source's
decimal literals. -/
def NORTH_AMERICA_BOUNDS : ℚ × ℚ × ℚ × ℚ :=
  (mkRat 549955 100000, mkRat (-167276413) 1000000,
   mkRat 83162102 1000000, mkRat (-52233040) 1000000)

/-- `WildfireDetection.js:13-20` — `isInNorthAmerica(lat, lng)`. -/
def isInNorthAmerica (lat lng : JSNum) : Bool :=
  JSNum.jsLe (JSNum.num NORTH_AMERICA_BOUNDS.1) lat &&
  JSNum.jsLe (JSNum.num NORTH_AMERICA_BOUNDS.2.1) lng &&
  JSNum.jsLe lat (JSNum.num NORTH_AMERICA_BOUNDS.2.2.1) &&
  JSNum.jsLe lng (JSNum.num NORTH_AMERICA_BOUNDS.2.2.2)

/-- An untrusted backend record (`RawDetection`): every field may be
missing or any number.  Fields irrelevant to the claims (`acq_date`,
`frp`, …) are omitted. -/
structure RawDetection where
  latitude : Option JSNum
  lat : Option JSNum
  longitude : Option JSNum
  lng : Option JSNum
  confidence : Option JSNum
  brightness : Option JSNum
deriving DecidableEq

/-- The result of the spread-plus-defaults step in
`WildfireDetection.js:88-95`: the original record (kept by `...fire`)
together with the four defaulted fields. -/
structure ProcessedFire where
  raw : RawDetection
  latitude : JSNum
  longitude : JSNum
  confidence : JSNum
  brightness : JSNum
deriving DecidableEq

/-- `WildfireDetection.js:88-95` — one record of the `.map` step:
`latitude: fire.latitude || fire.lat || 0`,
`longitude: fire.longitude || fire.lng || 0`,
`confidence: fire.confidence || 50`, `brightness: fire.brightness || 300`. -/
def processFire (fire : RawDetection) : ProcessedFire :=
  { raw := fire
    latitude := jsOr fire.latitude (jsOr fire.lat (JSNum.num 0))
    longitude := jsOr fire.longitude (jsOr fire.lng (JSNum.num 0))
    confidence := jsOr fire.confidence (JSNum.num 50)
    brightness := jsOr fire.brightness (JSNum.num 300) }

/-- `WildfireDetection.js:87-103` — `processedFires`: map the defaults
over the raw records, then keep only records inside North America. -/
def processedFires (fires : List RawDetection) : List ProcessedFire :=
  (fires.map processFire).filter
    (fun fire => isInNorthAmerica fire.latitude fire.longitude)

/-- `geoutils.js:17-24` — `getFireColor(confidence)`:
clamp `confidence || 0` to `[0,100]`, then the five-tier table. -/
def getFireColor (confidence : JSNum) : String :=
  let value := jsMin (JSNum.num 100) (jsMax (JSNum.num 0) (jsOr (some confidence) (JSNum.num 0)))
  if JSNum.jsLt (JSNum.num 80) value then "#ff0000"
  else if JSNum.jsLt (JSNum.num 60) value then "#ff6600"
  else if JSNum.jsLt (JSNum.num 40) value then "#ff9900"
  else if JSNum.jsLt (JSNum.num 20) value then "#ffcc00"
  else "#ffff00"

/-- `WildfireDetection.js:32-35` — the color expression inside
`getFireIcon(confidence)` (four tiers, no clamping). -/
def getFireIconColor (confidence : JSNum) : String :=
  if JSNum.jsLt (JSNum.num 80) confidence then "#ff0000"
  else if JSNum.jsLt (JSNum.num 60) confidence then "#ff6600"
  else if JSNum.jsLt (JSNum.num 40) confidence then "#ff9900"
  else "#ffcc00"

/-- The clamp `Math.min(100, Math.max(0, c))` of `geoutils.js:18`,
restricted to finite inputs. -/
def clampConf (q : ℚ) : ℚ := min 100 (max 0 q)

/-- Severity rank of a tier color, highest = 4.  Formalization
vocabulary for the spec's severity ordering over the code's colors. -/
def tierRank (color : String) : ℕ :=
  if color = "#ff0000" then 4
  else if color = "#ff6600" then 3
  else if color = "#ff9900" then 2
  else if color = "#ffcc00" then 1
  else 0

/-- Severity tier name of a tier color, per the spec's five-tier table. -/
def tierName (color : String) : String :=
  if color = "#ff0000" then "high"
  else if color = "#ff6600" then "medium-high"
  else if color = "#ff9900" then "medium"
  else if color = "#ffcc00" then "low-medium"
  else "low"

/-- React state of the `WildfireDetection` component (the fields the
claims are about; display-only modal state is omitted). -/
structure CompState where
  fireMarkers : List ℕ
  heatMapLayer : Option ℕ
  error : String
  isLoading : Bool

/-- The Leaflet map's fire-relevant layer registry.  Layers are keyed by
unique stamp ids; `heatData` records the point list a heat layer was
built from; `nextId` is the id allocator. -/
structure MapState where
  markerLayers : Finset ℕ
  heatLayers : Finset ℕ
  heatData : ℕ → List (JSNum × JSNum × JSNum)
  nextId : ℕ

/-- `WildfireDetection.js:143-149` — marker validity inside
`updateFireMarkers`: `const lat = fire.latitude || fire.lat`, same for
`lng`, then `typeof lat === 'number' && !isNaN(lat)` for both. -/
def markerValid (fire : ProcessedFire) : Bool :=
  match jsOrOpt (some fire.latitude) fire.raw.lat,
        jsOrOpt (some fire.longitude) fire.raw.lng with
  | some la, some ln => !(decide (la = JSNum.nan)) && !(decide (ln = JSNum.nan))
  | _, _ => false

/-- `WildfireDetection.js:141-181` — the `.map` over `fires` that builds
a fresh `L.marker` for each record with valid coordinates (each marker is
stamped with a fresh id and added to the map) and skips invalid records
(`return null` + trailing `.filter`).  Returns the new marker ids, the
map's marker layers, and the advanced allocator. -/
def addMarkers : List ProcessedFire → Finset ℕ → ℕ → List ℕ × Finset ℕ × ℕ
  | [], layers, nid => ([], layers, nid)
  | fire :: rest, layers, nid =>
    if markerValid fire then
      let r := addMarkers rest (insert nid layers) (nid + 1)
      (nid :: r.1, r.2.1, r.2.2)
    else
      addMarkers rest layers nid

/-- `WildfireDetection.js:123-185` — `updateFireMarkers(fires)`: remove
every tracked marker that is still on the map, then either clear the
tracked list (empty input) or build fresh markers and track them. -/
def updateFireMarkers (fires : List ProcessedFire) (cs : CompState) (ms : MapState) :
    CompState × MapState :=
  let layers := cs.fireMarkers.foldl (fun s m => if m ∈ s then s.erase m else s) ms.markerLayers
  if fires.isEmpty then
    ({ cs with fireMarkers := [] }, { ms with markerLayers := layers })
  else
    let r := addMarkers fires layers ms.nextId
    ({ cs with fireMarkers := r.1 }, { ms with markerLayers := r.2.1, nextId := r.2.2 })

/-- `(f.confidence || 50) / 100` — the heat point weight of
`WildfireDetection.js:192`. -/
def jsDiv100 : JSNum → JSNum
  | .nan => .nan
  | .inf => .inf
  | .negInf => .negInf
  | .num q => .num (q / 100)

/-- `WildfireDetection.js:192` — the `heatData` array:
`fires.map(f => [f.latitude, f.longitude, (f.confidence || 50) / 100])`. -/
def heatPoints (fires : List ProcessedFire) : List (JSNum × JSNum × JSNum) :=
  fires.map (fun f => (f.latitude, f.longitude, jsDiv100 (jsOr (some f.confidence) (JSNum.num 50))))

/-- `WildfireDetection.js:189` — `if (heatMapLayer)
map.removeLayer(heatMapLayer)`: detach the tracked heat layer, if any
(`map.removeLayer` is a no-op for a detached layer). -/
def removeHeatLayer (cs : CompState) (ms : MapState) : MapState :=
  match cs.heatMapLayer with
  | some h => { ms with heatLayers := ms.heatLayers.erase h }
  | none => ms

/-- `WildfireDetection.js:188-195` — `updateHeatMap(fires)`: remove the
tracked heat layer from the map, return early on an empty list (the
tracked handle is left stale but detached), otherwise build and track
one fresh heat layer from the full list. -/
def updateHeatMap (fires : List ProcessedFire) (cs : CompState) (ms : MapState) :
    CompState × MapState :=
  let ms1 := removeHeatLayer cs ms
  if fires.isEmpty then (cs, ms1)
  else
    ({ cs with heatMapLayer := some ms1.nextId },
     { ms1 with
        heatLayers := insert ms1.nextId ms1.heatLayers
        heatData := Function.update ms1.heatData ms1.nextId (heatPoints fires)
        nextId := ms1.nextId + 1 })

/-- Outcome of one `analyze-fire-map` round trip, as discriminated by
`fetchFireData` (`WildfireDetection.js:64-84`): the `apiRequest` call
threw (network error or non-2xx status), the response lacked
`fire_detections`, or it carried a detection array. -/
inductive FetchResult where
  | networkError : String → FetchResult
  | noDetections : FetchResult
  | success : List RawDetection → FetchResult

/-- `WildfireDetection.js:64-119` — what `fetchFireData` does once the
response is known: failures set the error banner and return without
touching any overlay; a success normalizes the records and runs
`updateFireMarkers` then `updateHeatMap`.  `setIsLoading(false)` runs in
every case (the `finally`). -/
def applyFetchResponse (res : FetchResult) (cs : CompState) (ms : MapState) :
    CompState × MapState :=
  match res with
  | .networkError msg =>
    ({ cs with error := "Failed to fetch fire data: " ++ msg, isLoading := false }, ms)
  | .noDetections =>
    ({ cs with error := "No fire data available for this area", isLoading := false }, ms)
  | .success fires =>
    let pf := processedFires fires
    let r1 := updateFireMarkers pf cs ms
    let r2 := updateHeatMap pf r1.1 r1.2
    ({ r2.1 with isLoading := false }, r2.2)

/-- A viewport bounds value `[swLat, swLng, neLat, neLng]`
(`WildfireDetection.js:203-204`). -/
abbrev Bounds := ℚ × ℚ × ℚ × ℚ

/-- State of the debounce effect (`WildfireDetection.js:213-216`): the
pending `setTimeout` (deadline in ms and the bounds that scheduled it,
which is also the latest bounds) and the fetches fired so far (fire time
and the bounds in effect). -/
structure SchedState where
  pending : Option (ℤ × Bounds)
  fetched : List (ℤ × Bounds)

/-- One bounds-change event at time `e.1` (ms) with value `e.2`: a
pending timer whose deadline has passed fires first; then the effect
cleanup clears any pending timer and schedules a new one `w` later
(`clearTimeout` + `setTimeout(fetchFireData, 500)`). -/
def debStep (w : ℤ) (s : SchedState) (e : ℤ × Bounds) : SchedState :=
  let s1 : SchedState :=
    match s.pending with
    | some pb =>
      if pb.1 ≤ e.1 then
        { pending := none, fetched := s.fetched ++ [pb] }
      else s
    | none => s
  { pending := some (e.1 + w, e.2), fetched := s1.fetched }

/-- Run the debounce effect over a time-ordered event list, then let the
final pending timer expire. -/
def runDebounce (w : ℤ) (events : List (ℤ × Bounds)) : List (ℤ × Bounds) :=
  let s := events.foldl (debStep w) ⟨none, []⟩
  match s.pending with
  | some pb => s.fetched ++ [pb]
  | none => s.fetched

/-- The whole subsystem: debounce scheduler plus component and map state. -/
structure SysState where
  sched : SchedState
  comp : CompState
  map : MapState

/-- An externally visible event of the subsystem. -/
inductive Event where
  | boundsChange : ℤ → Bounds → Event
  | response : FetchResult → Event

/-- One step of the subsystem: a bounds change drives only the debounce
scheduler; an arriving response drives only the component and map state
(the code contains no retry or rescheduling on a response). -/
def componentStep (w : ℤ) (st : SysState) : Event → SysState
  | .boundsChange t b => { st with sched := debStep w st.sched (t, b) }
  | .response res =>
    let r := applyFetchResponse res st.comp st.map
    { st with comp := r.1, map := r.2 }

/-- Initial React state of the component (`WildfireDetection.js:23-29`). -/
def initComp : CompState :=
  { fireMarkers := [], heatMapLayer := none, error := "", isLoading := false }

/-- A fresh map with no fire layers. -/
def initMap : MapState :=
  { markerLayers := ∅, heatLayers := ∅, heatData := fun _ => [], nextId := 0 }

/-- A well-formed detection inside North America. -/
def rGood : RawDetection :=
  { latitude := some (JSNum.num 40), lat := none,
    longitude := some (JSNum.num (-100)), lng := none,
    confidence := some (JSNum.num 70), brightness := some (JSNum.num 320) }

/-- The spec scenario record `{lat:91, lng:0, confidence:70}` (invalid
latitude, `lat`/`lng` key spelling). -/
def r91 : RawDetection :=
  { latitude := none, lat := some (JSNum.num 91),
    longitude := none, lng := some (JSNum.num 0),
    confidence := some (JSNum.num 70), brightness := none }

/-- The spec scenario record `{latitude:37.77, longitude:-122.41,
confidence:85}` (`37.77 = mkRat 3777 100`, `-122.41 = mkRat (-12241) 100`,
proved by `rHigh_coords_eq` below). -/
def rHigh : RawDetection :=
  { latitude := some (JSNum.num (mkRat 3777 100)), lat := none,
    longitude := some (JSNum.num (mkRat (-12241) 100)), lng := none,
    confidence := some (JSNum.num 85), brightness := none }

/-- An in-bounds record whose `confidence` is present and numerically `0`. -/
def rZeroConf : RawDetection :=
  { latitude := some (JSNum.num 40), lat := none,
    longitude := some (JSNum.num (-100)), lng := none,
    confidence := some (JSNum.num 0), brightness := none }

/-- A record with both coordinate spellings missing. -/
def rMissingCoords : RawDetection :=
  { latitude := none, lat := none, longitude := none, lng := none,
    confidence := some (JSNum.num 70), brightness := none }

/-- `withinWindow w events` — every pair of consecutive events is
time-ordered and closer than `w` ms (a debounce "burst"). -/
def withinWindow (w : ℤ) : List (ℤ × Bounds) → Bool
  | a :: b :: rest =>
    decide (a.1 < b.1) && decide (b.1 - a.1 < w) && withinWindow w (b :: rest)
  | _ => true

/-- The subsystem's initial state: no pending timer, no fetches, empty
component and map state. -/
def initSys : SysState :=
  { sched := { pending := none, fetched := [] }, comp := initComp, map := initMap }

/-- `NORTH_AMERICA_BOUNDS` is the source's decimal literal tuple
`[5.499550, -167.276413, 83.162102, -52.233040]`. -/
theorem northAmericaBounds_eq :
    NORTH_AMERICA_BOUNDS = (5.499550, -167.276413, 83.162102, -52.233040) := by
  unfold NORTH_AMERICA_BOUNDS
  simp only [Rat.mkRat_eq_div]
  norm_num

/-- `rHigh` carries the spec scenario coordinates `37.77 / -122.41`. -/
theorem rHigh_coords_eq :
    rHigh.latitude = some (JSNum.num 37.77) ∧
    rHigh.longitude = some (JSNum.num (-122.41)) := by
  unfold rHigh
  simp only [Rat.mkRat_eq_div]
  norm_num

theorem jsOr_num_zero (q : ℚ) : jsOr (some (JSNum.num q)) (JSNum.num 0) = JSNum.num q := by
  by_cases h : q = 0 <;> simp [jsOr, JSNum.truthy, h]

theorem jsMax_num (a b : ℚ) : jsMax (JSNum.num a) (JSNum.num b) = JSNum.num (max a b) := rfl

theorem jsMin_num (a b : ℚ) : jsMin (JSNum.num a) (JSNum.num b) = JSNum.num (min a b) := rfl

theorem jsLt_num (a b : ℚ) : JSNum.jsLt (JSNum.num a) (JSNum.num b) = decide (a < b) := rfl

/-- Evaluation of `getFireColor` on a finite input: clamp, then the
five-tier table. -/
theorem getFireColor_num (q : ℚ) :
    getFireColor (JSNum.num q) =
      if 80 < clampConf q then "#ff0000"
      else if 60 < clampConf q then "#ff6600"
      else if 40 < clampConf q then "#ff9900"
      else if 20 < clampConf q then "#ffcc00"
      else "#ffff00" := by
  unfold getFireColor clampConf
  rw [jsOr_num_zero, jsMax_num, jsMin_num]
  simp only [jsLt_num, decide_eq_true_eq]

/-- Evaluation of the marker icon color on a finite input: the raw
four-tier table, no clamping. -/
theorem getFireIconColor_num (q : ℚ) :
    getFireIconColor (JSNum.num q) =
      if 80 < q then "#ff0000"
      else if 60 < q then "#ff6600"
      else if 40 < q then "#ff9900"
      else "#ffcc00" := by
  unfold getFireIconColor
  simp only [jsLt_num, decide_eq_true_eq]

theorem tierRank_red : tierRank "#ff0000" = 4 := rfl

theorem tierRank_orangeRed : tierRank "#ff6600" = 3 := rfl

theorem tierRank_orange : tierRank "#ff9900" = 2 := rfl

theorem tierRank_yellowOrange : tierRank "#ffcc00" = 1 := rfl

theorem tierRank_yellow : tierRank "#ffff00" = 0 := rfl

theorem clampConf_idem (q : ℚ) : clampConf (clampConf q) = clampConf q := by
  unfold clampConf
  have h0 : (0:ℚ) ≤ min 100 (max 0 q) := le_min (by norm_num) (le_max_left 0 q)
  rw [max_eq_right h0, min_eq_right (min_le_left 100 (max 0 q))]

theorem clampConf_mono {c d : ℚ} (h : c ≤ d) : clampConf c ≤ clampConf d :=
  min_le_min le_rfl (max_le_max le_rfl h)

/-- C2: `getFireColor` clamps its input to `[0,100]` and then applies the
five-tier table: `>80 → #ff0000`, `(60,80] → #ff6600`, `(40,60] →
#ff9900`, `(20,40] → #ffcc00`, `≤20 → #ffff00`.  In particular 80 maps
to `#ff6600` (medium-high, not high), 85 maps to `#ff0000` whose tier
name is "high", and the severity rank is monotonically non-decreasing in
the confidence. -/
theorem getFireColor_five_tier_monotone :
    (∀ q : ℚ, getFireColor (JSNum.num q) = getFireColor (JSNum.num (clampConf q))) ∧
    (∀ q : ℚ,
      (80 < clampConf q → getFireColor (JSNum.num q) = "#ff0000") ∧
      (60 < clampConf q ∧ clampConf q ≤ 80 → getFireColor (JSNum.num q) = "#ff6600") ∧
      (40 < clampConf q ∧ clampConf q ≤ 60 → getFireColor (JSNum.num q) = "#ff9900") ∧
      (20 < clampConf q ∧ clampConf q ≤ 40 → getFireColor (JSNum.num q) = "#ffcc00") ∧
      (clampConf q ≤ 20 → getFireColor (JSNum.num q) = "#ffff00")) ∧
    getFireColor (JSNum.num 80) = "#ff6600" ∧
    getFireColor (JSNum.num 85) = "#ff0000" ∧
    tierName (getFireColor (JSNum.num 85)) = "high" ∧
    (∀ c d : ℚ, c ≤ d →
      tierRank (getFireColor (JSNum.num c)) ≤ tierRank (getFireColor (JSNum.num d))) := by
  refine ⟨fun q => ?_, fun q => ?_, by decide, by decide, by decide, fun c d h => ?_⟩
  · rw [getFireColor_num, getFireColor_num, clampConf_idem]
  · refine ⟨fun h => ?_, fun h => ?_, fun h => ?_, fun h => ?_, fun h => ?_⟩ <;>
      rw [getFireColor_num] <;>
      split_ifs <;>
      first
        | rfl
        | (exfalso
           first
             | linarith
             | (obtain ⟨ha, hb⟩ := h; linarith))
  · have hcd := clampConf_mono h
    rw [getFireColor_num, getFireColor_num]
    split_ifs <;>
      simp only [tierRank_red, tierRank_orangeRed, tierRank_orange, tierRank_yellowOrange,
        tierRank_yellow] <;>
      linarith

/-- C2 witness: instances of the clamped table, the 80/85 boundary
facts, and monotonicity at the concrete pair (60, 85). -/
theorem getFireColor_five_tier_monotone_witness :
    getFireColor (JSNum.num 85) = "#ff0000" ∧
    ((60:ℚ) ≤ 85 ∧
      tierRank (getFireColor (JSNum.num 60)) ≤ tierRank (getFireColor (JSNum.num 85))) :=
  ⟨getFireColor_five_tier_monotone.2.2.2.1,
   by norm_num, getFireColor_five_tier_monotone.2.2.2.2.2 60 85 (by norm_num)⟩

/-- C3 counterexample: at confidence 10 the marker icon color
(`WildfireDetection.js:33-35`) is `#ffcc00` while the legend classifier
`getFireColor` returns `#ffff00` — the two functions are not
extensionally equal. -/
theorem marker_legend_color_differ_at10 :
    getFireIconColor (JSNum.num 10) = "#ffcc00" ∧
    getFireColor (JSNum.num 10) = "#ffff00" ∧
    getFireIconColor (JSNum.num 10) ≠ getFireColor (JSNum.num 10) := by
  decide

/-- C3 amended: the marker icon color agrees with the legend classifier
exactly on confidences above 20; at or below 20 the marker shows
`#ffcc00` while the legend shows `#ffff00`. -/
theorem marker_color_matches_legend_above20 (q : ℚ) :
    (20 < q → getFireIconColor (JSNum.num q) = getFireColor (JSNum.num q)) ∧
    (q ≤ 20 → getFireIconColor (JSNum.num q) = "#ffcc00" ∧
      getFireColor (JSNum.num q) = "#ffff00") := by
  constructor
  · intro h
    rw [getFireIconColor_num, getFireColor_num]
    by_cases h100 : q ≤ 100
    · have hc : clampConf q = q := by
        unfold clampConf
        rw [max_eq_right (by linarith), min_eq_right h100]
      rw [hc]
      split_ifs <;> first | rfl | linarith
    · have hc : clampConf q = 100 := by
        unfold clampConf
        rw [max_eq_right (by linarith), min_eq_left (by linarith)]
      rw [hc]
      split_ifs <;> first | rfl | linarith
  · intro h
    have hc : clampConf q ≤ 20 :=
      le_trans (min_le_right 100 (max 0 q)) (max_le (by norm_num) h)
    rw [getFireIconColor_num, getFireColor_num]
    constructor
    · split_ifs <;> first | rfl | linarith
    · split_ifs <;> first | rfl | linarith

/-- C3 amended witness: agreement at confidence 85, divergence at 10. -/
theorem marker_color_matches_legend_above20_witness :
    getFireIconColor (JSNum.num 85) = getFireColor (JSNum.num 85) ∧
    (getFireIconColor (JSNum.num 10) = "#ffcc00" ∧
      getFireColor (JSNum.num 10) = "#ffff00") :=
  ⟨(marker_color_matches_legend_above20 85).1 (by norm_num),
   (marker_color_matches_legend_above20 10).2 (by norm_num)⟩

theorem isInNorthAmerica_eq_true {la ln : JSNum} (h : isInNorthAmerica la ln = true) :
    ∃ a b : ℚ, la = JSNum.num a ∧ ln = JSNum.num b ∧
      NORTH_AMERICA_BOUNDS.1 ≤ a ∧ a ≤ NORTH_AMERICA_BOUNDS.2.2.1 ∧
      NORTH_AMERICA_BOUNDS.2.1 ≤ b ∧ b ≤ NORTH_AMERICA_BOUNDS.2.2.2 := by
  unfold isInNorthAmerica at h
  rw [Bool.and_eq_true, Bool.and_eq_true, Bool.and_eq_true] at h
  obtain ⟨⟨⟨h1, h2⟩, h3⟩, h4⟩ := h
  cases la <;> cases ln <;> simp_all [JSNum.jsLe]

theorem northAmerica_false_lat {ln : JSNum} :
    isInNorthAmerica (JSNum.num 0) ln = false ∧
    isInNorthAmerica JSNum.inf ln = false ∧
    isInNorthAmerica JSNum.negInf ln = false := by
  have hz : JSNum.jsLe (JSNum.num NORTH_AMERICA_BOUNDS.1) (JSNum.num 0) = false := by decide
  have hi : JSNum.jsLe JSNum.inf (JSNum.num NORTH_AMERICA_BOUNDS.2.2.1) = false := rfl
  have hn : JSNum.jsLe (JSNum.num NORTH_AMERICA_BOUNDS.1) JSNum.negInf = false := rfl
  refine ⟨?_, ?_, ?_⟩ <;> simp [isInNorthAmerica, hz, hi, hn]

theorem northAmerica_false_lng {la : JSNum} :
    isInNorthAmerica la (JSNum.num 0) = false ∧
    isInNorthAmerica la JSNum.inf = false ∧
    isInNorthAmerica la JSNum.negInf = false := by
  have hz : JSNum.jsLe (JSNum.num 0) (JSNum.num NORTH_AMERICA_BOUNDS.2.2.2) = false := by decide
  have hi : JSNum.jsLe JSNum.inf (JSNum.num NORTH_AMERICA_BOUNDS.2.2.2) = false := rfl
  have hn : JSNum.jsLe (JSNum.num NORTH_AMERICA_BOUNDS.2.1) JSNum.negInf = false := rfl
  refine ⟨?_, ?_, ?_⟩ <;> simp [isInNorthAmerica, hz, hi, hn]

theorem jsOr_zero_cases (b : Option JSNum) (h : ∀ q : ℚ, b ≠ some (JSNum.num q)) :
    jsOr b (JSNum.num 0) = JSNum.num 0 ∨ jsOr b (JSNum.num 0) = JSNum.inf ∨
      jsOr b (JSNum.num 0) = JSNum.negInf := by
  rcases b with _ | w
  · exact Or.inl rfl
  · cases w with
    | nan => exact Or.inl rfl
    | inf => exact Or.inr (Or.inl rfl)
    | negInf => exact Or.inr (Or.inr rfl)
    | num q => exact absurd rfl (h q)

/-- If the coordinate resolved from the two key spellings is not a
finite number, the defaulted coordinate of `processFire` is `0`, `+∞`
or `-∞`. -/
theorem resolved_nonfinite_cases (a b : Option JSNum)
    (h : ∀ q : ℚ, jsOrOpt a b ≠ some (JSNum.num q)) :
    jsOr a (jsOr b (JSNum.num 0)) = JSNum.num 0 ∨
      jsOr a (jsOr b (JSNum.num 0)) = JSNum.inf ∨
      jsOr a (jsOr b (JSNum.num 0)) = JSNum.negInf := by
  rcases a with _ | v
  · simpa [jsOr] using jsOr_zero_cases b (by simpa [jsOrOpt] using h)
  · cases v with
    | nan => simpa [jsOr, JSNum.truthy] using jsOr_zero_cases b (by simpa [jsOrOpt, JSNum.truthy] using h)
    | inf => exact Or.inr (Or.inl rfl)
    | negInf => exact Or.inr (Or.inr rfl)
    | num q =>
      by_cases hq : q = 0
      · subst hq
        simpa [jsOr, JSNum.truthy] using
          jsOr_zero_cases b (by simpa [jsOrOpt, JSNum.truthy] using h)
      · exfalso
        apply h q
        simp [jsOrOpt, JSNum.truthy, hq]

/-- C4: every detection returned by the normalizer has finite, nonzero
coordinates (no `(0,0)` phantom marker can appear), and any record whose
resolved coordinate — `latitude || lat`, resp. `longitude || lng` — is
not a finite number fails the North-America filter and is dropped. -/
theorem normalizer_drops_nonfinite (fires : List RawDetection) :
    (∀ f ∈ processedFires fires,
      (∃ a : ℚ, f.latitude = JSNum.num a ∧ a ≠ 0) ∧
      (∃ b : ℚ, f.longitude = JSNum.num b ∧ b ≠ 0)) ∧
    (∀ r : RawDetection,
      ((∀ q : ℚ, jsOrOpt r.latitude r.lat ≠ some (JSNum.num q)) ∨
       (∀ q : ℚ, jsOrOpt r.longitude r.lng ≠ some (JSNum.num q))) →
      isInNorthAmerica (processFire r).latitude (processFire r).longitude = false) := by
  constructor
  · intro f hf
    obtain ⟨-, hp⟩ := List.mem_filter.mp hf
    obtain ⟨a, b, ha, hb, h1, h2, h3, h4⟩ := isInNorthAmerica_eq_true hp
    have hl : (0:ℚ) < NORTH_AMERICA_BOUNDS.1 := by decide
    have hr : NORTH_AMERICA_BOUNDS.2.2.2 < (0:ℚ) := by decide
    exact ⟨⟨a, ha, by linarith⟩, ⟨b, hb, by linarith⟩⟩
  · intro r h
    rcases h with h | h
    · rcases resolved_nonfinite_cases r.latitude r.lat h with hc | hc | hc <;>
        rw [show (processFire r).latitude = jsOr r.latitude (jsOr r.lat (JSNum.num 0)) from rfl, hc]
      · exact northAmerica_false_lat.1
      · exact northAmerica_false_lat.2.1
      · exact northAmerica_false_lat.2.2
    · rcases resolved_nonfinite_cases r.longitude r.lng h with hc | hc | hc <;>
        rw [show (processFire r).longitude = jsOr r.longitude (jsOr r.lng (JSNum.num 0)) from rfl, hc]
      · exact northAmerica_false_lng.1
      · exact northAmerica_false_lng.2.1
      · exact northAmerica_false_lng.2.2

/-- C4 witness: the record with both coordinate spellings missing is
rejected by the filter, and the surviving good record has finite nonzero
coordinates. -/
theorem normalizer_drops_nonfinite_witness :
    isInNorthAmerica (processFire rMissingCoords).latitude
      (processFire rMissingCoords).longitude = false ∧
    ((∃ a : ℚ, (processFire rGood).latitude = JSNum.num a ∧ a ≠ 0) ∧
     (∃ b : ℚ, (processFire rGood).longitude = JSNum.num b ∧ b ≠ 0)) :=
  ⟨(normalizer_drops_nonfinite []).2 rMissingCoords
     (Or.inl (fun q hq => by simp [rMissingCoords, jsOrOpt] at hq)),
   (normalizer_drops_nonfinite [rGood]).1 (processFire rGood) (by decide)⟩

/-- C5 counterexample: `rZeroConf` has `confidence` present and
numerically `0`, survives normalization, and its output confidence is
`50`, not `0` — refuting "output equals input … including 0". -/
theorem confidence_zero_defaults_to_50 :
    rZeroConf.confidence = some (JSNum.num 0) ∧
    processedFires [rZeroConf] = [processFire rZeroConf] ∧
    (processFire rZeroConf).confidence = JSNum.num 50 ∧
    (processFire rZeroConf).confidence ≠ JSNum.num 0 := by
  decide

/-- C5 amended: the output confidence equals the input confidence
whenever the input is a nonzero finite number; it is `50` when the input
is missing, `NaN`, or `0` (JavaScript `||` treats `0` as falsy). -/
theorem confidence_default_rules (r : RawDetection) :
    (∀ q : ℚ, q ≠ 0 → r.confidence = some (JSNum.num q) →
      (processFire r).confidence = JSNum.num q) ∧
    ((r.confidence = none ∨ r.confidence = some JSNum.nan ∨
        r.confidence = some (JSNum.num 0)) →
      (processFire r).confidence = JSNum.num 50) := by
  constructor
  · intro q hq hr
    simp [processFire, jsOr, hr, JSNum.truthy, hq]
  · rintro (h | h | h) <;> simp [processFire, jsOr, h, JSNum.truthy]

/-- C5 amended witness: nonzero confidence 70 is preserved; zero
confidence defaults to 50. -/
theorem confidence_default_rules_witness :
    (processFire rGood).confidence = JSNum.num 70 ∧
    (processFire rZeroConf).confidence = JSNum.num 50 :=
  ⟨(confidence_default_rules rGood).1 70 (by norm_num) rfl,
   (confidence_default_rules rZeroConf).2 (Or.inr (Or.inr rfl))⟩

theorem length_filter_add_countP_not {α : Type} (p : α → Bool) (l : List α) :
    (l.filter p).length + l.countP (fun x => !(p x)) = l.length := by
  induction l with
  | nil => simp
  | cons x xs ih =>
    by_cases h : p x <;> simp [List.filter_cons, List.countP_cons, h] <;> omega

/-- C10: every normalized detection lies inside the configured
continental box (`lat ∈ [5.499550, 83.162102]`, `lng ∈ [-167.276413,
-52.233040]`), and the output length is the input length minus the
number of records rejected by the box filter. -/
theorem normalized_in_bounding_box (fires : List RawDetection) :
    (∀ f ∈ processedFires fires,
      ∃ a b : ℚ, f.latitude = JSNum.num a ∧ f.longitude = JSNum.num b ∧
        5.499550 ≤ a ∧ a ≤ 83.162102 ∧ -167.276413 ≤ b ∧ b ≤ -52.233040) ∧
    (processedFires fires).length +
        (fires.map processFire).countP
          (fun f => !(isInNorthAmerica f.latitude f.longitude)) =
      fires.length := by
  constructor
  · intro f hf
    obtain ⟨-, hp⟩ := List.mem_filter.mp hf
    obtain ⟨a, b, ha, hb, h1, h2, h3, h4⟩ := isInNorthAmerica_eq_true hp
    rw [northAmericaBounds_eq] at h1 h2 h3 h4
    exact ⟨a, b, ha, hb, h1, h2, h3, h4⟩
  · have h := length_filter_add_countP_not
      (fun f : ProcessedFire => isInNorthAmerica f.latitude f.longitude)
      (fires.map processFire)
    simpa [processedFires] using h

/-- C10 witness: the spec scenario — input `[{lat:91, lng:0,
confidence:70}, good]` of length 2 yields output of length 1 (the
invalid-latitude record is dropped), and the surviving record is inside
the box. -/
theorem normalized_in_bounding_box_witness :
    (∃ a b : ℚ, (processFire rGood).latitude = JSNum.num a ∧
      (processFire rGood).longitude = JSNum.num b ∧
      5.499550 ≤ a ∧ a ≤ 83.162102 ∧ -167.276413 ≤ b ∧ b ≤ -52.233040) ∧
    (processedFires [r91, rGood]).length +
        ([r91, rGood].map processFire).countP
          (fun f => !(isInNorthAmerica f.latitude f.longitude)) = 2 ∧
    (processedFires [r91, rGood]).length = 1 :=
  ⟨(normalized_in_bounding_box [rGood]).1 (processFire rGood) (by decide),
   (normalized_in_bounding_box [r91, rGood]).2,
   by decide⟩

/-- The marker-reconciliation invariant: the component's tracked markers
are distinct, all attached to the map, and every attached layer id is
below the allocator. -/
def MInv (cs : CompState) (ms : MapState) : Prop :=
  cs.fireMarkers.Nodup ∧ (∀ m ∈ cs.fireMarkers, m ∈ ms.markerLayers) ∧
    ∀ m ∈ ms.markerLayers, m < ms.nextId

/-- The heat-layer invariant: every heat layer attached to the map is
the one tracked by the component. -/
def HInv (cs : CompState) (ms : MapState) : Prop :=
  ∀ hid ∈ ms.heatLayers, cs.heatMapLayer = some hid

theorem foldl_erase_eq_sdiff (l : List ℕ) (init : Finset ℕ) :
    l.foldl (fun s m => if m ∈ s then s.erase m else s) init = init \ l.toFinset := by
  induction l generalizing init with
  | nil => simp
  | cons m rest ih =>
    have hstep : (if m ∈ init then init.erase m else init) = init \ {m} := by
      by_cases h : m ∈ init
      · rw [if_pos h, Finset.erase_eq]
      · rw [if_neg h]
        ext x
        simp only [Finset.mem_sdiff, Finset.mem_singleton]
        exact ⟨fun hx => ⟨hx, fun he => h (he ▸ hx)⟩, fun hx => hx.1⟩
    rw [List.foldl_cons, hstep, ih, List.toFinset_cons, Finset.insert_eq, sdiff_sdiff_left,
      Finset.sup_eq_union]

theorem addMarkers_eq (fires : List ProcessedFire) : ∀ (layers : Finset ℕ) (nid : ℕ),
    addMarkers fires layers nid =
      (List.range' nid (fires.countP markerValid),
       layers ∪ (List.range' nid (fires.countP markerValid)).toFinset,
       nid + fires.countP markerValid) := by
  induction fires with
  | nil => intro layers nid; simp [addMarkers]
  | cons f rest ih =>
    intro layers nid
    by_cases h : markerValid f
    · have hk : (f :: rest).countP markerValid = rest.countP markerValid + 1 :=
        List.countP_cons_of_pos _ _ h
      rw [hk]
      simp only [addMarkers, h, if_true]
      rw [ih]
      refine Prod.ext ?_ (Prod.ext ?_ ?_) <;>
        simp [List.range'_succ, List.toFinset_cons, Finset.insert_union, Finset.union_insert]
      omega
    · have hk : (f :: rest).countP markerValid = rest.countP markerValid :=
        List.countP_cons_of_neg _ _ h
      rw [hk]
      simp only [addMarkers, h, if_false]
      exact ih layers nid

theorem mem_range'_iff {m s n : ℕ} : m ∈ List.range' s n ↔ s ≤ m ∧ m < s + n := by
  simpa using List.mem_range'_1

theorem range'_nodup (s n : ℕ) : (List.range' s n).Nodup := by
  simp [List.nodup_range']

theorem updateFireMarkers_empty_eq (fires : List ProcessedFire) (cs : CompState)
    (ms : MapState) (hemp : fires.isEmpty = true) :
    updateFireMarkers fires cs ms =
      ({ cs with fireMarkers := [] },
       { ms with markerLayers := ms.markerLayers \ cs.fireMarkers.toFinset }) := by
  unfold updateFireMarkers
  rw [foldl_erase_eq_sdiff, if_pos hemp]

theorem updateFireMarkers_nonempty_eq (fires : List ProcessedFire) (cs : CompState)
    (ms : MapState) (hemp : ¬ fires.isEmpty = true) :
    updateFireMarkers fires cs ms =
      ({ cs with fireMarkers := List.range' ms.nextId (fires.countP markerValid) },
       { ms with
          markerLayers := (ms.markerLayers \ cs.fireMarkers.toFinset) ∪
            (List.range' ms.nextId (fires.countP markerValid)).toFinset,
          nextId := ms.nextId + fires.countP markerValid }) := by
  unfold updateFireMarkers
  rw [foldl_erase_eq_sdiff, if_neg hemp, addMarkers_eq]

/-- Behavior of one `updateFireMarkers` call: the invariant is
preserved, the new tracked-marker count is the number of valid records,
the map's marker count changes by (new − old), every previous marker is
detached, and heat state is untouched. -/
theorem updateFireMarkers_spec (fires : List ProcessedFire) (cs : CompState) (ms : MapState)
    (h : MInv cs ms) :
    MInv (updateFireMarkers fires cs ms).1 (updateFireMarkers fires cs ms).2 ∧
    (updateFireMarkers fires cs ms).1.fireMarkers.length = fires.countP markerValid ∧
    (updateFireMarkers fires cs ms).2.markerLayers.card + cs.fireMarkers.length =
      ms.markerLayers.card + fires.countP markerValid ∧
    (∀ m ∈ cs.fireMarkers, m ∉ (updateFireMarkers fires cs ms).2.markerLayers) ∧
    (updateFireMarkers fires cs ms).1.heatMapLayer = cs.heatMapLayer ∧
    (updateFireMarkers fires cs ms).2.heatLayers = ms.heatLayers ∧
    (updateFireMarkers fires cs ms).2.heatData = ms.heatData ∧
    ms.nextId ≤ (updateFireMarkers fires cs ms).2.nextId := by
  obtain ⟨hnd, hsub, hlt⟩ := h
  have hsubF : cs.fireMarkers.toFinset ⊆ ms.markerLayers := by
    intro x hx
    exact hsub x (List.mem_toFinset.mp hx)
  have hcardF : cs.fireMarkers.toFinset.card = cs.fireMarkers.length :=
    List.toFinset_card_of_nodup hnd
  have hcardle : cs.fireMarkers.toFinset.card ≤ ms.markerLayers.card :=
    Finset.card_le_card hsubF
  have hsd : (ms.markerLayers \ cs.fireMarkers.toFinset).card =
      ms.markerLayers.card - cs.fireMarkers.toFinset.card :=
    Finset.card_sdiff hsubF
  by_cases hemp : fires.isEmpty
  · rw [updateFireMarkers_empty_eq fires cs ms hemp]
    dsimp only
    have hk : fires.countP markerValid = 0 := by
      rw [List.isEmpty_iff.mp hemp]; rfl
    refine ⟨⟨List.nodup_nil, ?_, ?_⟩, by simp [hk], ?_, ?_, rfl, rfl, rfl, le_rfl⟩
    · intro m hm; exact absurd hm (List.not_mem_nil m)
    · intro m hm
      exact hlt m (Finset.mem_sdiff.mp hm).1
    · rw [hk]; omega
    · intro m hm
      exact fun hmem => (Finset.mem_sdiff.mp hmem).2 (List.mem_toFinset.mpr hm)
  · rw [updateFireMarkers_nonempty_eq fires cs ms hemp]
    dsimp only
    set k := fires.countP markerValid with hk
    set R := List.range' ms.nextId k with hR
    have hRnd : R.Nodup := range'_nodup ms.nextId k
    have hRcard : R.toFinset.card = k := by
      rw [List.toFinset_card_of_nodup hRnd, hR, List.length_range']
    have hdisj : Disjoint (ms.markerLayers \ cs.fireMarkers.toFinset) R.toFinset := by
      rw [Finset.disjoint_left]
      intro x hx hxR
      have h1 : x < ms.nextId := hlt x (Finset.mem_sdiff.mp hx).1
      have h2 : ms.nextId ≤ x := (mem_range'_iff.mp (List.mem_toFinset.mp hxR)).1
      omega
    refine ⟨⟨hRnd, ?_, ?_⟩, ?_, ?_, ?_, rfl, rfl, rfl, by omega⟩
    · intro m hm
      exact Finset.mem_union_right _ (List.mem_toFinset.mpr hm)
    · intro m hm
      rcases Finset.mem_union.mp hm with hm | hm
      · have := hlt m (Finset.mem_sdiff.mp hm).1
        show m < ms.nextId + k
        omega
      · have := (mem_range'_iff.mp (List.mem_toFinset.mp hm)).2
        show m < ms.nextId + k
        omega
    · simp [hR, List.length_range']
    · rw [Finset.card_union_of_disjoint hdisj, hRcard, hsd]
      omega
    · intro m hm
      intro hmem
      rcases Finset.mem_union.mp hmem with hc | hc
      · exact (Finset.mem_sdiff.mp hc).2 (List.mem_toFinset.mpr hm)
      · have h1 := (mem_range'_iff.mp (List.mem_toFinset.mp hc)).1
        have h2 := hlt m (hsub m hm)
        omega

/-- C9: reconciliation is a full replace that cannot leak handles —
every marker of the previous cycle is detached from the map, and running
`updateFireMarkers` twice with the same detection list gives the same
tracked-marker count and no growth in the number of attached marker
layers. -/
theorem reconcile_full_replace_idempotent (fires : List ProcessedFire) (cs : CompState)
    (ms : MapState) (h : MInv cs ms) :
    (∀ m ∈ cs.fireMarkers, m ∉ (updateFireMarkers fires cs ms).2.markerLayers) ∧
    (updateFireMarkers fires (updateFireMarkers fires cs ms).1
        (updateFireMarkers fires cs ms).2).1.fireMarkers.length =
      (updateFireMarkers fires cs ms).1.fireMarkers.length ∧
    (updateFireMarkers fires (updateFireMarkers fires cs ms).1
        (updateFireMarkers fires cs ms).2).2.markerLayers.card =
      (updateFireMarkers fires cs ms).2.markerLayers.card := by
  obtain ⟨hInv1, hlen1, hcard1, hold1, -⟩ := updateFireMarkers_spec fires cs ms h
  obtain ⟨-, hlen2, hcard2, -⟩ :=
    updateFireMarkers_spec fires (updateFireMarkers fires cs ms).1
      (updateFireMarkers fires cs ms).2 hInv1
  exact ⟨hold1, by omega, by omega⟩

/-- C9 witness: reconciling the normalized good record twice from the
initial state keeps one marker and one attached layer. -/
theorem reconcile_full_replace_idempotent_witness :
    (updateFireMarkers (processedFires [rGood])
        (updateFireMarkers (processedFires [rGood]) initComp initMap).1
        (updateFireMarkers (processedFires [rGood]) initComp initMap).2).1.fireMarkers.length =
      (updateFireMarkers (processedFires [rGood]) initComp initMap).1.fireMarkers.length ∧
    (updateFireMarkers (processedFires [rGood])
        (updateFireMarkers (processedFires [rGood]) initComp initMap).1
        (updateFireMarkers (processedFires [rGood]) initComp initMap).2).2.markerLayers.card =
      (updateFireMarkers (processedFires [rGood]) initComp initMap).2.markerLayers.card ∧
    (updateFireMarkers (processedFires [rGood]) initComp initMap).1.fireMarkers.length = 1 :=
  ⟨(reconcile_full_replace_idempotent (processedFires [rGood]) initComp initMap
      (by refine ⟨List.nodup_nil, ?_, ?_⟩ <;> intro m hm <;> simp [initComp, initMap] at hm)).2.1,
   (reconcile_full_replace_idempotent (processedFires [rGood]) initComp initMap
      (by refine ⟨List.nodup_nil, ?_, ?_⟩ <;> intro m hm <;> simp [initComp, initMap] at hm)).2.2,
   by decide⟩

theorem removeHeatLayer_heatLayers_empty (cs : CompState) (ms : MapState) (h : HInv cs ms) :
    (removeHeatLayer cs ms).heatLayers = ∅ := by
  cases hml : cs.heatMapLayer with
  | none =>
    ext x
    simp only [removeHeatLayer, hml, Finset.not_mem_empty, iff_false]
    intro hx
    have hcontr := h x hx
    rw [hml] at hcontr
    exact Option.noConfusion hcontr
  | some hid =>
    ext x
    simp only [removeHeatLayer, hml, Finset.mem_erase, Finset.not_mem_empty, iff_false]
    rintro ⟨hne, hx⟩
    have hcontr := h x hx
    rw [hml] at hcontr
    exact hne (Option.some.inj hcontr).symm

theorem removeHeatLayer_parts (cs : CompState) (ms : MapState) :
    (removeHeatLayer cs ms).markerLayers = ms.markerLayers ∧
    (removeHeatLayer cs ms).heatData = ms.heatData ∧
    (removeHeatLayer cs ms).nextId = ms.nextId := by
  cases hml : cs.heatMapLayer <;> simp [removeHeatLayer, hml]

/-- Behavior of one `updateHeatMap` call from a state satisfying the
heat invariant: the invariant is preserved, at most one heat layer is
attached afterwards, an empty list leaves the map with no heat layer,
and a nonempty list leaves exactly one fresh layer built from the full
list; markers and error state are untouched. -/
theorem updateHeatMap_spec (fires : List ProcessedFire) (cs : CompState) (ms : MapState)
    (h : HInv cs ms) :
    HInv (updateHeatMap fires cs ms).1 (updateHeatMap fires cs ms).2 ∧
    (updateHeatMap fires cs ms).2.heatLayers.card ≤ 1 ∧
    (fires.isEmpty = true → (updateHeatMap fires cs ms).2.heatLayers = ∅) ∧
    (fires.isEmpty = false → ∃ hid,
      (updateHeatMap fires cs ms).2.heatLayers = {hid} ∧
      (updateHeatMap fires cs ms).2.heatData hid = heatPoints fires ∧
      (updateHeatMap fires cs ms).1.heatMapLayer = some hid) ∧
    (updateHeatMap fires cs ms).1.fireMarkers = cs.fireMarkers ∧
    (updateHeatMap fires cs ms).2.markerLayers = ms.markerLayers ∧
    (updateHeatMap fires cs ms).1.error = cs.error := by
  have hempty := removeHeatLayer_heatLayers_empty cs ms h
  obtain ⟨hmk, hhd, hni⟩ := removeHeatLayer_parts cs ms
  by_cases hemp : fires.isEmpty
  · have heq : updateHeatMap fires cs ms = (cs, removeHeatLayer cs ms) := by
      unfold updateHeatMap
      rw [if_pos hemp]
    rw [heq]
    dsimp only
    refine ⟨?_, ?_, fun _ => hempty, fun hff => ?_, rfl, hmk, rfl⟩
    · intro hid hmem
      rw [hempty] at hmem
      exact absurd hmem (Finset.not_mem_empty hid)
    · rw [hempty]; simp
    · rw [hemp] at hff; exact absurd hff (by simp)
  · have heq : updateHeatMap fires cs ms =
        ({ cs with heatMapLayer := some (removeHeatLayer cs ms).nextId },
         { removeHeatLayer cs ms with
            heatLayers := insert (removeHeatLayer cs ms).nextId (removeHeatLayer cs ms).heatLayers
            heatData := Function.update (removeHeatLayer cs ms).heatData
              (removeHeatLayer cs ms).nextId (heatPoints fires)
            nextId := (removeHeatLayer cs ms).nextId + 1 }) := by
      unfold updateHeatMap
      rw [if_neg hemp]
    rw [heq]
    dsimp only
    rw [hempty]
    refine ⟨?_, ?_, ?_, fun _ => ⟨(removeHeatLayer cs ms).nextId, rfl, ?_, rfl⟩, rfl, hmk, rfl⟩
    · intro hid hmem
      rcases Finset.mem_insert.mp hmem with hmem | hmem
      · rw [hmem]
      · exact absurd hmem (Finset.not_mem_empty hid)
    · rw [Finset.card_insert_of_not_mem (Finset.not_mem_empty _)]
      simp
    · intro hff
      exact absurd hff (by simp [hemp])
    · rw [Function.update_same]

/-- C8: in every state satisfying the heat invariant, one reconciliation
leaves at most one heat layer attached; an empty detection list removes
the layer and does not recreate it; a nonempty list rebuilds exactly one
layer from the full list; and on normalizer output the point weight
`(confidence || 50) / 100` is exactly `confidence / 100` (normalized
confidence is never falsy). -/
theorem heatmap_single_layer_rebuild (fires : List ProcessedFire) (cs : CompState)
    (ms : MapState) (h : HInv cs ms) :
    HInv (updateHeatMap fires cs ms).1 (updateHeatMap fires cs ms).2 ∧
    (updateHeatMap fires cs ms).2.heatLayers.card ≤ 1 ∧
    (fires = [] → (updateHeatMap fires cs ms).2.heatLayers = ∅) ∧
    (fires ≠ [] → ∃ hid,
      (updateHeatMap fires cs ms).2.heatLayers = {hid} ∧
      (updateHeatMap fires cs ms).2.heatData hid = heatPoints fires) ∧
    (∀ (raws : List RawDetection) (f : ProcessedFire), f ∈ processedFires raws →
      jsDiv100 (jsOr (some f.confidence) (JSNum.num 50)) = jsDiv100 f.confidence) := by
  obtain ⟨h1, h2, h3, h4, -⟩ := updateHeatMap_spec fires cs ms h
  refine ⟨h1, h2, fun hn => h3 (by rw [hn]; rfl), fun hn => ?_, ?_⟩
  · obtain ⟨hid, ha, hb, -⟩ := h4 (by
      cases fires with
      | nil => exact absurd rfl hn
      | cons a l => rfl)
    exact ⟨hid, ha, hb⟩
  · intro raws f hf
    obtain ⟨-, hp⟩ := List.mem_filter.mp hf
    obtain ⟨r, -, hr⟩ := List.mem_map.mp (List.mem_filter.mp hf).1
    have htr : f.confidence.truthy = true := by
      rw [← hr]
      show (jsOr r.confidence (JSNum.num 50)).truthy = true
      rcases r.confidence with _ | v
      · decide
      · by_cases hv : v.truthy
        · simpa [jsOr, hv]
        · simp [jsOr, hv]; decide
    rw [show jsOr (some f.confidence) (JSNum.num 50) =
          if f.confidence.truthy then f.confidence else JSNum.num 50 from rfl,
      if_pos htr]

/-- C8 witness: from the initial empty state, reconciling the normalized
good record attaches exactly one heat layer; reconciling the empty list
leaves no heat layer. -/
theorem heatmap_single_layer_rebuild_witness :
    (updateHeatMap (processedFires [rGood]) initComp initMap).2.heatLayers.card ≤ 1 ∧
    (updateHeatMap ([] : List ProcessedFire) initComp initMap).2.heatLayers = ∅ ∧
    (∃ hid, (updateHeatMap (processedFires [rGood]) initComp initMap).2.heatLayers = {hid} ∧
      (updateHeatMap (processedFires [rGood]) initComp initMap).2.heatData hid =
        heatPoints (processedFires [rGood])) :=
  ⟨(heatmap_single_layer_rebuild (processedFires [rGood]) initComp initMap
      (fun hid hmem => by simp [initMap] at hmem)).2.1,
   (heatmap_single_layer_rebuild ([] : List ProcessedFire) initComp initMap
      (fun hid hmem => by simp [initMap] at hmem)).2.2.1 rfl,
   (heatmap_single_layer_rebuild (processedFires [rGood]) initComp initMap
      (fun hid hmem => by simp [initMap] at hmem)).2.2.2.1 (by decide)⟩

/-- C6: a failed fetch cycle — thrown request (network error / non-2xx)
or a response without `fire_detections` — sets a nonempty user-visible
error, leaves the component's markers and heat layer and the whole map
state unchanged, and handling a response never schedules anything in the
debounce scheduler (no automatic retry). -/
theorem fetch_failure_preserves_overlays (msg : String) (res : FetchResult)
    (cs : CompState) (ms : MapState) (w : ℤ) (st : SysState) :
    ((applyFetchResponse (FetchResult.networkError msg) cs ms).1.error ≠ "" ∧
     (applyFetchResponse (FetchResult.networkError msg) cs ms).1.fireMarkers = cs.fireMarkers ∧
     (applyFetchResponse (FetchResult.networkError msg) cs ms).1.heatMapLayer = cs.heatMapLayer ∧
     (applyFetchResponse (FetchResult.networkError msg) cs ms).2 = ms) ∧
    ((applyFetchResponse FetchResult.noDetections cs ms).1.error ≠ "" ∧
     (applyFetchResponse FetchResult.noDetections cs ms).1.fireMarkers = cs.fireMarkers ∧
     (applyFetchResponse FetchResult.noDetections cs ms).1.heatMapLayer = cs.heatMapLayer ∧
     (applyFetchResponse FetchResult.noDetections cs ms).2 = ms) ∧
    (componentStep w st (Event.response res)).sched = st.sched := by
  refine ⟨⟨?_, rfl, rfl, rfl⟩, ⟨?_, rfl, rfl, rfl⟩, rfl⟩
  · intro hc
    rw [show (applyFetchResponse (FetchResult.networkError msg) cs ms).1.error =
          "Failed to fetch fire data: " ++ msg from rfl] at hc
    have hlen := congrArg String.length hc
    rw [String.length_append] at hlen
    have h27 : ("Failed to fetch fire data: " : String).length = 27 := rfl
    have h0 : ("" : String).length = 0 := rfl
    omega
  · intro hc
    rw [show (applyFetchResponse FetchResult.noDetections cs ms).1.error =
          "No fire data available for this area" from rfl] at hc
    exact absurd hc (by decide)

/-- C6 witness: a concrete failed cycle from the initial state. -/
theorem fetch_failure_preserves_overlays_witness :
    (applyFetchResponse (FetchResult.networkError "timeout") initComp initMap).1.error ≠ "" ∧
    (applyFetchResponse (FetchResult.networkError "timeout") initComp initMap).2 = initMap ∧
    (componentStep 500 initSys (Event.response FetchResult.noDetections)).sched =
      initSys.sched :=
  ⟨(fetch_failure_preserves_overlays "timeout" FetchResult.noDetections initComp initMap
      500 initSys).1.1,
   (fetch_failure_preserves_overlays "timeout" FetchResult.noDetections initComp initMap
      500 initSys).1.2.2.2,
   (fetch_failure_preserves_overlays "timeout" FetchResult.noDetections initComp initMap
      500 initSys).2.2⟩

theorem applyFetchResponse_success_eq (fires : List RawDetection) (cs : CompState)
    (ms : MapState) :
    applyFetchResponse (FetchResult.success fires) cs ms =
      ({ (updateHeatMap (processedFires fires)
            (updateFireMarkers (processedFires fires) cs ms).1
            (updateFireMarkers (processedFires fires) cs ms).2).1 with isLoading := false },
       (updateHeatMap (processedFires fires)
            (updateFireMarkers (processedFires fires) cs ms).1
            (updateFireMarkers (processedFires fires) cs ms).2).2) := rfl

/-- Every record surviving the normalizer passes `updateFireMarkers`'s
coordinate validity check. -/
theorem processedFires_markerValid (raws : List RawDetection) :
    ∀ f ∈ processedFires raws, markerValid f = true := by
  intro f hf
  obtain ⟨-, hp⟩ := List.mem_filter.mp hf
  obtain ⟨a, b, ha, hb, h1, h2, h3, h4⟩ := isInNorthAmerica_eq_true hp
  have hl0 : (0:ℚ) < NORTH_AMERICA_BOUNDS.1 := by decide
  have hr0 : NORTH_AMERICA_BOUNDS.2.2.2 < (0:ℚ) := by decide
  have ha0 : a ≠ 0 := by intro hz; rw [hz] at h1; linarith
  have hb0 : b ≠ 0 := by intro hz; rw [hz] at h4; linarith
  unfold markerValid
  rw [ha, hb]
  simp [jsOrOpt, JSNum.truthy, ha0, hb0]

/-- C1 amended: `fetchFireData` has no request-id bookkeeping, so every
successful response is applied in full, whenever it arrives: afterwards
the tracked marker count equals the normalized detection count of that
response, and the heat layer is exactly the one rebuilt from that
response — the final overlay reflects the last response to arrive, which
may belong to a superseded request (last response wins, not last
request). -/
theorem late_response_overwrites (fires : List RawDetection) (cs : CompState) (ms : MapState)
    (hM : MInv cs ms) (hH : HInv cs ms) :
    (applyFetchResponse (FetchResult.success fires) cs ms).1.fireMarkers.length =
      (processedFires fires).length ∧
    (processedFires fires = [] →
      (applyFetchResponse (FetchResult.success fires) cs ms).2.heatLayers = ∅) ∧
    (processedFires fires ≠ [] → ∃ hid,
      (applyFetchResponse (FetchResult.success fires) cs ms).2.heatLayers = {hid} ∧
      (applyFetchResponse (FetchResult.success fires) cs ms).2.heatData hid =
        heatPoints (processedFires fires)) := by
  obtain ⟨hM1, hlen1, -, -, hhml, hhl, -, -⟩ :=
    updateFireMarkers_spec (processedFires fires) cs ms hM
  have hH1 : HInv (updateFireMarkers (processedFires fires) cs ms).1
      (updateFireMarkers (processedFires fires) cs ms).2 := by
    intro hid hmem
    rw [hhl] at hmem
    rw [hhml]
    exact hH hid hmem
  obtain ⟨-, -, hempty, hsingle, hfm, -, -⟩ :=
    updateHeatMap_spec (processedFires fires)
      (updateFireMarkers (processedFires fires) cs ms).1
      (updateFireMarkers (processedFires fires) cs ms).2 hH1
  rw [applyFetchResponse_success_eq]
  refine ⟨?_, fun hn => ?_, fun hn => ?_⟩
  · show (updateHeatMap (processedFires fires)
        (updateFireMarkers (processedFires fires) cs ms).1
        (updateFireMarkers (processedFires fires) cs ms).2).1.fireMarkers.length =
      (processedFires fires).length
    rw [hfm, hlen1]
    exact List.countP_eq_length.mpr (processedFires_markerValid fires)
  · exact hempty (by rw [hn]; rfl)
  · obtain ⟨hid, hA, hB, -⟩ := hsingle (by
      cases hpf : processedFires fires with
      | nil => exact absurd hpf hn
      | cons a l => rfl)
    exact ⟨hid, hA, hB⟩

/-- C1 counterexample: the code applies a late response to a superseded
request in full.  After response 2 (one detection inside North America)
is applied, applying the late empty response 1 empties the marker list —
visibly mutating overlay state, not a no-op. -/
theorem stale_response_not_noop :
    (applyFetchResponse (FetchResult.success [rGood]) initComp initMap).1.fireMarkers.length
        = 1 ∧
    (applyFetchResponse (FetchResult.success [])
        (applyFetchResponse (FetchResult.success [rGood]) initComp initMap).1
        (applyFetchResponse (FetchResult.success [rGood]) initComp initMap).2).1.fireMarkers.length
        = 0 ∧
    (applyFetchResponse (FetchResult.success [])
        (applyFetchResponse (FetchResult.success [rGood]) initComp initMap).1
        (applyFetchResponse (FetchResult.success [rGood]) initComp initMap).2).1.fireMarkers
      ≠ (applyFetchResponse (FetchResult.success [rGood]) initComp initMap).1.fireMarkers := by
  decide

/-- C1 amended witness: applying the one-detection success response from
the initial state yields one marker and the heat layer rebuilt from it. -/
theorem late_response_overwrites_witness :
    (applyFetchResponse (FetchResult.success [rGood]) initComp initMap).1.fireMarkers.length =
      (processedFires [rGood]).length ∧
    (∃ hid,
      (applyFetchResponse (FetchResult.success [rGood]) initComp initMap).2.heatLayers
          = {hid} ∧
      (applyFetchResponse (FetchResult.success [rGood]) initComp initMap).2.heatData hid =
        heatPoints (processedFires [rGood])) :=
  ⟨(late_response_overwrites [rGood] initComp initMap
      ⟨List.nodup_nil, fun m hm => absurd hm (List.not_mem_nil m),
        fun m hm => absurd hm (by simp [initMap])⟩
      (fun hid hmem => absurd hmem (by simp [initMap]))).1,
   (late_response_overwrites [rGood] initComp initMap
      ⟨List.nodup_nil, fun m hm => absurd hm (List.not_mem_nil m),
        fun m hm => absurd hm (by simp [initMap])⟩
      (fun hid hmem => absurd hmem (by simp [initMap]))).2.2 (by decide)⟩

theorem debStep_pending (w d : ℤ) (b : Bounds) (F : List (ℤ × Bounds)) (e : ℤ × Bounds) :
    debStep w ⟨some (d, b), F⟩ e =
      if d ≤ e.1 then ⟨some (e.1 + w, e.2), F ++ [(d, b)]⟩
      else ⟨some (e.1 + w, e.2), F⟩ := by
  unfold debStep
  by_cases hc : d ≤ e.1 <;> simp [hc]

theorem debounce_aux (w : ℤ) (rest : List (ℤ × Bounds)) :
    ∀ (e : ℤ × Bounds) (F : List (ℤ × Bounds)),
      withinWindow w (e :: rest) = true →
      rest.foldl (debStep w) ⟨some (e.1 + w, e.2), F⟩ =
        ⟨some ((rest.getLastD e).1 + w, (rest.getLastD e).2), F⟩ := by
  induction rest with
  | nil => intro e F _; rfl
  | cons f rest' ih =>
    intro e F h
    have h1 : e.1 < f.1 ∧ f.1 - e.1 < w ∧ withinWindow w (f :: rest') = true := by
      simpa [withinWindow, Bool.and_eq_true, decide_eq_true_eq, and_assoc] using h
    obtain ⟨ha, hb, hc⟩ := h1
    rw [List.foldl_cons, debStep_pending, if_neg (by omega), List.getLastD_cons]
    exact ih f F hc

/-- C7: a burst of bounds-change events, each arriving within the
debounce window of its predecessor, triggers exactly one fetch — at one
window after the last event, carrying the last event's bounds; no
intermediate bounds value is fetched. -/
theorem debounce_single_fetch (w : ℤ) (e : ℤ × Bounds) (rest : List (ℤ × Bounds))
    (hw : withinWindow w (e :: rest) = true) :
    runDebounce w (e :: rest) = [((rest.getLastD e).1 + w, (rest.getLastD e).2)] := by
  have hfold : (e :: rest).foldl (debStep w) ⟨none, []⟩ =
      ⟨some ((rest.getLastD e).1 + w, (rest.getLastD e).2), []⟩ := by
    rw [List.foldl_cons,
      show debStep w ⟨none, []⟩ e = ⟨some (e.1 + w, e.2), []⟩ from rfl]
    exact debounce_aux w rest e [] hw
  unfold runDebounce
  rw [hfold]
  rfl

/-- C7 witness: three events at 0/100/200 ms with a 500 ms window
produce exactly one fetch at 700 ms with the last bounds. -/
theorem debounce_single_fetch_witness :
    withinWindow 500
        [((0:ℤ), ((0:ℚ), 0, 0, 0)), (100, ((1:ℚ), 1, 1, 1)), (200, ((2:ℚ), 2, 2, 2))]
      = true ∧
    runDebounce 500
        [((0:ℤ), ((0:ℚ), 0, 0, 0)), (100, ((1:ℚ), 1, 1, 1)), (200, ((2:ℚ), 2, 2, 2))]
      = [(700, ((2:ℚ), 2, 2, 2))] :=
  ⟨by decide,
   (debounce_single_fetch 500 ((0:ℤ), ((0:ℚ), 0, 0, 0))
      [(100, ((1:ℚ), 1, 1, 1)), (200, ((2:ℚ), 2, 2, 2))] (by decide)).trans (by decide)⟩
